import Mathlib

/-!
# Verification of the `auto_review.py` rule-checking engine

This file gives a shallow embedding, in Lean 4, of the static-analysis core of
`auto_review.py` (the function `run_checks_on_files` together with the module
level regular expressions and helper tables it uses), and proves or refutes a
list of claims about it.

Modelling conventions:

* A source line is a `List Char`; a file is a `String` path paired with its
  ordered list of lines; the engine input is an ordered association list
  (Python dicts preserve insertion order).
* Every Python regular expression used by the engine is re-implemented as an
  explicit, executable character-level matcher with the exact semantics the
  Python `re` module gives to that concrete pattern (anchors, laziness,
  greediness, word boundaries, character classes).  Python's `\w`, `\b` and
  `\s` are Unicode-aware; C source fed to this engine is ASCII except inside
  comments and literals, and we model every code point above 127 as a word
  character (Python treats Cyrillic letters, the only non-ASCII text that
  occurs around this program, as word characters).
* Machine integers do not occur; Python `int` is modelled by `Int` where a
  value can go negative (brace depth counters) and by `Nat` elsewhere.
-/

namespace AutoReview

/-- One finding, mirroring the dicts
`{'file': path, 'line': i, 'rule': r, 'message': m}` appended by
`run_checks_on_files`.  (`file`/`line` are always present for engine-produced
issues; the `None`-valued variants only occur in `main`, outside the engine.) -/
structure Issue where
  file : String
  line : Nat
  rule : Nat
  message : List Char
deriving DecidableEq, Repr

/-- Python `\s` (ASCII part; lines produced by `splitlines` contain no `\n`,
but the class is kept complete). -/
def isSpaceCh (c : Char) : Bool :=
  c == ' ' || c == '\t' || c == '\n' || c == '\x0b' || c == '\x0c' || c == '\r'

def isDigitCh (c : Char) : Bool :=
  '0' ≤ c && c ≤ '9'

def isLowerCh (c : Char) : Bool :=
  'a' ≤ c && c ≤ 'z'

def isUpperCh (c : Char) : Bool :=
  'A' ≤ c && c ≤ 'Z'

def isAlphaCh (c : Char) : Bool :=
  isLowerCh c || isUpperCh c

/-- Python `\w` / the class `[_A-Za-z0-9]`: word characters.  Non-ASCII code
points are treated as word characters (see the header comment). -/
def isWordCh (c : Char) : Bool :=
  isAlphaCh c || isDigitCh c || c == '_' || c.val ≥ 128

/-- First character of a Python identifier-shaped group `[A-Za-z_]`. -/
def isIdentStartCh (c : Char) : Bool :=
  isAlphaCh c || c == '_'

/-- Shorthand turning a string literal into the character list we compute on. -/
def str (s : String) : List Char := s.data

/-- `pat` begins `s` (plain prefix test on character lists). -/
def begins : List Char → List Char → Bool
  | [], _ => true
  | _ :: _, [] => false
  | p :: ps, c :: cs => p == c && begins ps cs

/-- Python `pat in s`: substring containment. -/
def containsSub (pat s : List Char) : Bool :=
  begins pat s ||
    match s with
    | [] => false
    | _ :: cs => containsSub pat cs

/-- Python `str.strip()` (both ends). -/
def pystrip (s : List Char) : List Char :=
  ((s.dropWhile isSpaceCh).reverse.dropWhile isSpaceCh).reverse

/-- Python `str.split(sep)` for a single-character separator: keeps empty
pieces, as Python does. -/
def splitChar (sep : Char) : List Char → List (List Char)
  | [] => [[]]
  | c :: cs =>
    if c == sep then
      [] :: splitChar sep cs
    else
      match splitChar sep cs with
      | [] => [[c]]
      | p :: ps => (c :: p) :: ps

/-- Helper for `splitWs`: `acc` is the current word, reversed. -/
def splitWsAux : List Char → List Char → List (List Char)
  | [], acc => if acc.isEmpty then [] else [acc.reverse]
  | c :: cs, acc =>
    if isSpaceCh c then
      if acc.isEmpty then splitWsAux cs [] else acc.reverse :: splitWsAux cs []
    else
      splitWsAux cs (c :: acc)

/-- Python `str.split()` with no argument: split on whitespace runs, dropping
empty pieces. -/
def splitWs (s : List Char) : List (List Char) :=
  splitWsAux s []

/-- Decimal rendering of a `Nat`, used where Python interpolates an integer
into a message. -/
def natStr (n : Nat) : List Char := (Nat.repr n).data

/-! ## Word boundaries and word searches -/

/-- Word-ness of "the character at a position", `none` = outside the text.
Python `\b` matches where the two sides differ in word-ness. -/
def isWordOpt : Option Char → Bool
  | none => false
  | some c => isWordCh c

/-- Prefix match of `w` against `s` under a character comparison `eq`
(pattern char first); returns the remaining text on success. -/
def wordAt (eq : Char → Char → Bool) : List Char → List Char → Option (List Char)
  | [], s => some s
  | _ :: _, [] => none
  | a :: ws, c :: cs => if eq a c then wordAt eq ws cs else none

/-- `re.search(r'\b' + w + r'\b', s)` for a non-empty literal `w`, with `eq`
deciding a character match (`(· == ·)` for a plain search, case-folding for
`re.I`).  `prev` is the character before the current position. -/
def wordBoundAux (eq : Char → Char → Bool) (w : List Char) :
    Option Char → List Char → Bool
  | _, [] => false
  | prev, c :: cs =>
    ((isWordOpt prev != isWordOpt (some c)) &&
      (match wordAt eq w (c :: cs) with
       | some rest => isWordOpt w.getLast? != isWordOpt rest.head?
       | none => false)) ||
    wordBoundAux eq w (some c) cs

/-- `re.search(r'\b' + re.escape(w) + r'\b', s)` (case-sensitive). -/
def wordBoundSearch (w s : List Char) : Bool :=
  wordBoundAux (fun a c => a == c) w none s

/-- Case-insensitive variant (`flags=re.I`); the pattern `w` is lowercase
ASCII in every use (the transliteration tokens). -/
def wordBoundSearchCI (w s : List Char) : Bool :=
  wordBoundAux (fun a c => a == c.toLower) w none s

/-- `re.search(r'\b' + w + r'\s*\(', s)`: a word-bounded name followed by
optional spaces and an opening parenthesis (`scanf_re`, `exit_re`). -/
def wordParenAux (w : List Char) : Option Char → List Char → Bool
  | _, [] => false
  | prev, c :: cs =>
    ((isWordOpt prev != isWordOpt (some c)) &&
      (match wordAt (fun a d => a == d) w (c :: cs) with
       | some rest => (rest.dropWhile isSpaceCh).head? == some '('
       | none => false)) ||
    wordParenAux w (some c) cs

def wordParenSearch (w s : List Char) : Bool :=
  wordParenAux w none s

/-! ## Naming styles (`style_patterns`)

Each of the three patterns is `^<first-class><tail-class>*$` and is applied
with `pat.match(name)`, so it is anchored at the start and the explicit `$`
anchors the end (Python `$` also matches just before one trailing newline). -/

def isAlnumCh (c : Char) : Bool := isAlphaCh c || isDigitCh c

/-- `<cls>*$`: the whole remainder is in the class, or everything but a
single trailing newline is. -/
def tailMatch (cls : Char → Bool) : List Char → Bool
  | [] => true
  | ['\n'] => true
  | c :: cs => cls c && tailMatch cls cs

/-- `^[a-z][A-Za-z0-9]*$` ('camelCase'). -/
def camelOk : List Char → Bool
  | [] => false
  | c :: cs => isLowerCh c && tailMatch isAlnumCh cs

/-- `^[a-z][a-z0-9_]*$` ('snake_case'). -/
def snakeOk : List Char → Bool
  | [] => false
  | c :: cs => isLowerCh c && tailMatch (fun d => isLowerCh d || isDigitCh d || d == '_') cs

/-- `^[A-Z][A-Za-z0-9]*$` ('CamelCase'). -/
def pascalOk : List Char → Bool
  | [] => false
  | c :: cs => isUpperCh c && tailMatch isAlnumCh cs

/-- The engine only uses which style matched to decide whether to emit a
rule-2 issue: it fires exactly when no style matches. -/
def styleOk (s : List Char) : Bool :=
  camelOk s || snakeOk s || pascalOk s

/-- `translit_tokens`, in source order. -/
def translitTokens : List (List Char) :=
  [str "vvod", str "vivod", str "chislo", str "soobshchenie",
   str "massiv", str "stroka", str "otvet", str "perechislenie"]

/-! ## `func_def_re`

`^[\w\*\s]+?\b([A-Za-z_][A-Za-z0-9_]*)\s*\(([^;]*)\)\s*\{`, used with
`.match` on a stripped line.  The lazy prefix means the first split point `k`
(all prefix characters in `[\w\*\s]`, a word boundary at `k`) whose
continuation succeeds wins; the identifier is a maximal run (shortening it
cannot help, since the next character would then be a word character where
`\s*\(` must match); `([^;]*)\)` is greedy, so the last viable `)` before the
first `;` wins. -/

/-- The class `[\w\*\s]`. -/
def isClassW (c : Char) : Bool := isWordCh c || c == '*' || isSpaceCh c

/-- ASCII `[A-Za-z0-9_]` (an explicit class, unlike `\w`). -/
def isAsciiWordCh (c : Char) : Bool := isAlphaCh c || isDigitCh c || c == '_'

/-- `([A-Za-z_][A-Za-z0-9_]*)`, greedy; returns (identifier, rest). -/
def identTake : List Char → Option (List Char × List Char)
  | [] => none
  | c :: cs =>
    if isIdentStartCh c then
      some (c :: cs.takeWhile isAsciiWordCh, cs.dropWhile isAsciiWordCh)
    else
      none

/-- `([^;]*)\)\s*\{` with a greedy group: returns the group (the characters
consumed by `[^;]*`) for the longest split whose `)` is followed by optional
spaces and `{`. -/
def parenSplit : List Char → Option (List Char)
  | [] => none
  | c :: cs =>
    if c == ';' then
      none
    else
      match parenSplit cs with
      | some ps => some (c :: ps)
      | none =>
        if c == ')' && ((cs.dropWhile isSpaceCh).head? == some '{') then
          some []
        else
          none

/-- Continuation of `func_def_re` after the split point:
`([A-Za-z_][A-Za-z0-9_]*)\s*\(([^;]*)\)\s*\{`. -/
def funcDefTail (s : List Char) : Option (List Char × List Char) :=
  match identTake s with
  | none => none
  | some (name, rest1) =>
    match rest1.dropWhile isSpaceCh with
    | '(' :: rest3 => (parenSplit rest3).map (fun ps => (name, ps))
    | _ => none

/-- Scan for the lazy split point; `prev` is the last prefix character (the
prefix is known to be non-empty and inside `[\w\*\s]`). -/
def funcDefAux (prev : Char) : List Char → Option (List Char × List Char)
  | [] => none
  | c :: cs =>
    if !isWordCh prev then
      match funcDefTail (c :: cs) with
      | some r => some r
      | none => if isClassW c then funcDefAux c cs else none
    else
      if isClassW c then funcDefAux c cs else none

/-- `func_def_re.match(s)`: returns `(group 1, group 2)` = (function name,
raw parameter-list text). -/
def funcDefMatch : List Char → Option (List Char × List Char)
  | [] => none
  | c :: cs => if isClassW c then funcDefAux c cs else none

/-! ## The variable-declaration search (rule 2, second site)

`\b(?:int|char|float|double|long|short|size_t|unsigned|struct)\s+([A-Za-z_][A-Za-z0-9_]*)`
with `re.search`: leftmost position wins; at one position the alternatives
are tried in source order. -/

def varKeywords : List (List Char) :=
  [str "int", str "char", str "float", str "double", str "long",
   str "short", str "size_t", str "unsigned", str "struct"]

/-- Try the keyword alternatives in order at the current position; each must
be followed by `\s+` and an identifier. -/
def tryKeywords : List (List Char) → List Char → Option (List Char)
  | [], _ => none
  | kw :: kws, s =>
    match wordAt (fun a c => a == c) kw s with
    | some rest =>
      (match rest with
       | c :: cs =>
         if isSpaceCh c then
           match identTake (cs.dropWhile isSpaceCh) with
           | some (name, _) => some name
           | none => tryKeywords kws s
         else
           tryKeywords kws s
       | [] => tryKeywords kws s)
    | none => tryKeywords kws s

def varDeclAux : Option Char → List Char → Option (List Char)
  | _, [] => none
  | prev, c :: cs =>
    if !isWordOpt prev then
      match tryKeywords varKeywords (c :: cs) with
      | some name => some name
      | none => varDeclAux (some c) cs
    else
      varDeclAux (some c) cs

/-- The rule-2 variable-declaration search on a raw line. -/
def varDeclMatch (s : List Char) : Option (List Char) :=
  varDeclAux none s

/-! ## Comment and string-literal stripping (the rule-0 block, lines 215-218,
and the brace scan, line 338) -/

/-- Scan for the matching `*/` of an open block comment; returns the text
after it, or `none` if the comment never closes. -/
def findClose : List Char → Option (List Char)
  | [] => none
  | ['*'] => none
  | '*' :: '/' :: rest => some rest
  | _ :: rest => findClose rest

/-- `re.sub(r'/\*.*?\*/', '', line)`: remove non-greedy block-comment spans;
an unclosed `/*` is left in place (and then nothing later can match either,
since no `*/` exists beyond it).  The skip-ahead recursion is driven by a
fuel argument (one unit per character consumed) so the definition stays
structural and evaluates by kernel reduction. -/
def subBlockF : Nat → List Char → List Char
  | 0, s => s
  | _ + 1, [] => []
  | fuel + 1, '/' :: '*' :: rest =>
    (match findClose rest with
     | some after => subBlockF fuel after
     | none => '/' :: subBlockF fuel ('*' :: rest))
  | fuel + 1, c :: rest => c :: subBlockF fuel rest

def subBlock (s : List Char) : List Char :=
  subBlockF (s.length + 1) s

/-- `re.sub(r'//.*', '', ln)`: truncate at the first `//`. -/
def subLineComment : List Char → List Char
  | [] => []
  | '/' :: '/' :: _ => []
  | c :: rest => c :: subLineComment rest

/-- Scan for the closing quote `q`, honouring `\\.` escapes; returns the text
after the closing quote, or `none` when the literal never closes (then the
pattern `q([^q\\]|\\.)*q` has no match starting at this opening quote). -/
def scanLit (q : Char) : List Char → Option (List Char)
  | [] => none
  | '\\' :: [] => none
  | '\\' :: _ :: rest => scanLit q rest
  | c :: rest => if c == q then some rest else scanLit q rest

/-- `re.sub(r'q([^q\\]|\\.)*q', repl, s)` for a quote character `q`: each
complete literal (with escapes) is replaced by `repl`; the replacement text
is not rescanned; a lone unclosed quote stays.  Fuel as in `subBlockF`. -/
def removeQuotedF (q : Char) (repl : List Char) : Nat → List Char → List Char
  | 0, s => s
  | _ + 1, [] => []
  | fuel + 1, c :: rest =>
    if c == q then
      match scanLit q rest with
      | some after => repl ++ removeQuotedF q repl fuel after
      | none => c :: removeQuotedF q repl fuel rest
    else
      c :: removeQuotedF q repl fuel rest

def removeQuoted (q : Char) (repl : List Char) (s : List Char) : List Char :=
  removeQuotedF q repl (s.length + 1) s

/-- The cleaned line `ln` of the rule-0 block: block comments, then line
comments, then `"…"` string literals, then `'…'` char literals removed. -/
def cleanLine (line : List Char) : List Char :=
  removeQuoted '\'' [] (removeQuoted '"' [] (subLineComment (subBlock line)))

/-! ## The rule-0 pattern (line 220)

`(^|\s)&\s*([A-Za-z_][A-Za-z0-9_]*)\s*$$[^$$]+\]`

The two `$` are end anchors: in a string with no internal newline, `$`
matches at the very end, or just before one single trailing newline.  After
the anchor, `[^$$]+` (one or more non-`$` characters) must still consume at
least one character and a `]` must follow, which is impossible; the pattern
therefore matches no line, and rule 0 never fires.  We embed it faithfully
and prove exactly that. -/

/-- `$` as a condition on the remaining suffix: at the true end, or before a
single trailing newline. -/
def dollarHere (t : List Char) : Bool :=
  t == [] || t == ['\n']

/-- `[^$$]*\]`, greedy, at the current position; returns the text after the
`]` of the longest viable consumption. -/
def brackRest : List Char → Option (List Char)
  | [] => none
  | c :: cs =>
    if c == '$' then none
    else
      match brackRest cs with
      | some r => some r
      | none => if c == ']' then some cs else none

/-- `[^$$]+\]` at the current position (at least one non-`$` character). -/
def brackTail : List Char → Option (List Char)
  | [] => none
  | c :: cs => if c == '$' then none else brackRest cs

/-- `$$[^$$]+\]` at the current position (the anchor is tested twice at the
same position — both tests are one condition on the suffix). -/
def dollarTail (t : List Char) : Option (List Char) :=
  if dollarHere t && dollarHere t then brackTail t else none

/-- `&\s*([A-Za-z_][A-Za-z0-9_]*)\s*` then `dollarTail`, at the current
position (just after the `(^|\s)` group); returns the text after the match's
end, i.e. `ln[match.end():]`. -/
def ampTail (t : List Char) : Option (List Char) :=
  match t with
  | '&' :: rest =>
    (match identTake (rest.dropWhile isSpaceCh) with
     | some (_, rest2) => dollarTail (rest2.dropWhile isSpaceCh)
     | none => none)
  | _ => none

/-- `re.search` of the rule-0 pattern: the `(^|\s)` group either matches
empty at position 0 or consumes one whitespace character. -/
def rule0Aux : List Char → Option (List Char)
  | [] => none
  | c :: cs =>
    match (if isSpaceCh c then ampTail cs else none) with
    | some r => some r
    | none => rule0Aux cs

/-- The rule-0 search; on success returns the suffix of the line starting at
`match.end()` (so `end_pos ≥ len(ln)` is "the suffix is empty" and
`ln[end_pos]` is the suffix's head). -/
def rule0Search (s : List Char) : Option (List Char) :=
  match ampTail s with
  | some r => some r
  | none => rule0Aux s

/-! ## Magic-number literals (`number_literal_re`, rule 5)

`(?<![_A-Za-z0-9])(-?\d+(\.\d+)?)(?![_A-Za-z0-9])` with `finditer`.  At a
position whose previous character is not in `[_A-Za-z0-9]`: an optional `-`,
a maximal digit run, optionally `.` plus a maximal digit run, then a
lookahead for a non-`[_A-Za-z0-9]` character.  Backtracking only ever helps
by dropping the whole fractional part (a shorter digit run always leaves a
digit in the lookahead; after dropping the fraction the lookahead sees `.`,
which always passes). -/

/-- Word-ness for the explicit ASCII class `[_A-Za-z0-9]` used in the
lookbehind/lookahead. -/
def isAsciiWordOpt : Option Char → Bool
  | none => false
  | some c => isAsciiWordCh c

/-- `\d+(\.\d+)?` followed by the lookahead, at the current position (the
optional `-` is handled by the caller); returns `(digits text, rest)`. -/
def digitsTail (t : List Char) : Option (List Char × List Char) :=
  match t with
  | c :: cs =>
    if isDigitCh c then
      let d1 := c :: cs.takeWhile isDigitCh
      let r1 := cs.dropWhile isDigitCh
      match r1 with
      | '.' :: d :: ds =>
        if isDigitCh d then
          let d2 := d :: ds.takeWhile isDigitCh
          let r3 := ds.dropWhile isDigitCh
          if !isAsciiWordOpt r3.head? then
            some (d1 ++ '.' :: d2, r3)
          else
            -- the fractional lookahead failed: drop the optional group; the
            -- lookahead then sees `.`, which always passes
            some (d1, r1)
        else
          some (d1, r1)
      | _ =>
        if !isAsciiWordOpt r1.head? then some (d1, r1) else none
    else
      none
  | [] => none

/-- Match the full number body `-?\d+(\.\d+)?(?!…)` at the current position;
returns `(group 1, rest)` on success. -/
def numHere (t : List Char) : Option (List Char × List Char) :=
  match t with
  | '-' :: rest => (digitsTail rest).map (fun p => ('-' :: p.1, p.2))
  | _ => digitsTail t

/-- `finditer` over the line: the list of `group(1)` values, left to right,
non-overlapping (scanning resumes at each match's end); `prev` is the
character before the position; fuel as in `subBlockF`. -/
def numScanF : Nat → Option Char → List Char → List (List Char)
  | 0, _, _ => []
  | _ + 1, _, [] => []
  | fuel + 1, prev, c :: cs =>
    if !isAsciiWordOpt prev then
      match numHere (c :: cs) with
      | some (v, rest) => v :: numScanF fuel (some (v.getLastD c)) rest
      | none => numScanF fuel (some c) cs
    else
      numScanF fuel (some c) cs

def numberLiterals (s : List Char) : List (List Char) :=
  numScanF (s.length + 1) none s

/-! ## Messages (the exact f-strings of the source) -/

def allowedStyles : List Char := str "camelCase, snake_case, CamelCase"

def msg3 (t : List Char) : List Char :=
  str "Найден транслит '" ++ t ++ str "'; используйте переводчик (правило 3)."

def msg0 : List Char := str "&arr[i] запрещено. БАН (правило 0)."

def msg2func (f : List Char) : List Char :=
  str "Функция '" ++ f ++
    str "' не соответствует ни одному из допустимых стилей имён (" ++
    allowedStyles ++ str ") (правило 2)."

def msg12line (f : List Char) (n : Nat) : List Char :=
  str "У функции '" ++ f ++ str "' " ++ natStr n ++
    str " параметров (правило 12: предел 5)."

def msg10 (f : List Char) (n : Nat) : List Char :=
  str "Функция '" ++ f ++ str "' содержит " ++ natStr n ++
    str " return (правило 10: максимум 2)."

def msg2var (v : List Char) : List Char :=
  str "Переменная '" ++ v ++
    str "' не соответствует ни одному из допустимых стилей имён (" ++
    allowedStyles ++ str ") (правило 2)."

def msg4 (f : List Char) (n : Nat) : List Char :=
  str "Функция '" ++ f ++ str "' содержит " ++ natStr n ++
    str " строк (правило 4: предел 30)."

def msg12nest (f : List Char) (n : Nat) : List Char :=
  str "Вложенность функции '" ++ f ++ str "' составляет " ++ natStr n ++
    str " > 3 (правило 12)."

def msg12span (f : List Char) (n : Nat) : List Char :=
  str "Функция '" ++ f ++ str "' содержит " ++ natStr n ++
    str " параметров (rule 12)."

def msg18 (pn f : List Char) : List Char :=
  str "Параметр '" ++ pn ++ str "' не используется в функции '" ++ f ++
    str "' (правило 18)."

def msg8 : List Char := str "scanf: возвращаемое значение не проверяется (правило 8)."

def msg25 : List Char := str "Использование функции exit() (правило 25)."

def msg26 : List Char := str "Использование goto (правило 26)."

def msg14 : List Char := str "Вещественное число сравнивается некорректно (правило 14)."

def msg5 (v : List Char) : List Char :=
  str "Магическая константа " ++ v ++ str " (разрешено: 0,1,-1). (правило 5)."

def msg21 : List Char := str "Лишние вычисления (например, x = x + 0) (rule 21)."

/-! ## The rule-10 return scan (source lines 264-294)

For a definition matched at 1-based line `i`, the source iterates
`for j in range(i, len(lines))`, i.e. over the 0-based lines `i, i+1, …` —
starting at the line *after* the definition line (the definition line itself
is `lines[i-1]`).  The brace on the definition line is therefore never seen:
counting only activates at the first `{` on a later line and stops when that
region's brace count returns to 0. -/

def rcScan : List (List Char) → Int → Bool → Nat → Nat
  | [], _, _, cnt => cnt
  | l :: rest, lvl, inside, cnt =>
    let hasOpen := l.contains '{'
    let lvl1 := if hasOpen then lvl + (l.count '{' : Int) else lvl
    let inside1 := inside || hasOpen
    let cnt1 := if inside1 && wordBoundSearch (str "return") l then cnt + 1 else cnt
    if l.contains '}' && inside1 then
      let lvl2 := lvl1 - (l.count '}' : Int)
      if lvl2 == 0 then cnt1 else rcScan rest lvl2 inside1 cnt1
    else
      rcScan rest lvl1 inside1 cnt1

/-! ## The per-line pass (source lines 204-313) -/

/-- The skip test at line 206: `^\s*#`, `^\s*//` or `^\s*/\*`. -/
def skipLine (line : List Char) : Bool :=
  let ld := line.dropWhile isSpaceCh
  begins (str "#") ld || begins (str "//") ld || begins (str "/*") ld

/-- Parameter counting (lines 251-256 and 361-364) on the stripped
`group(2)` (both sites strip first): empty or `void` count 0, otherwise
commas + 1. -/
def paramCount (ps : List Char) : Nat :=
  if ps.isEmpty || ps == str "void" then 0 else ps.count ',' + 1

/-- All issues the per-line loop appends for 0-based line `i0` (order as in
the source: rule 3 per transliteration token, rule 0, then — on a function
definition match — rules 2, 12, 10, then the variable-declaration rule 2). -/
def lineChecks (p : String) (lines : List (List Char)) (i0 : Nat) : List Issue :=
  let line := lines.getD i0 []
  if skipLine line then []
  else
    let r3 : List Issue := translitTokens.filterMap (fun t =>
      if wordBoundSearchCI t line then some ⟨p, i0 + 1, 3, msg3 t⟩ else none)
    let ln := cleanLine line
    let r0 : List Issue :=
      match rule0Search ln with
      | none => []
      | some rem =>
        -- `if end_pos >= len(ln) or ln[end_pos] not in (')', '*')`
        if rem.isEmpty || !(rem.head? == some ')' || rem.head? == some '*') then
          [⟨p, i0 + 1, 0, msg0⟩]
        else []
    let rf : List Issue :=
      match funcDefMatch (pystrip line) with
      | none => []
      | some (f, raw) =>
        let r2f : List Issue :=
          if styleOk f then [] else [⟨p, i0 + 1, 2, msg2func f⟩]
        let pc := paramCount (pystrip raw)
        let r12 : List Issue :=
          if pc > 5 then [⟨p, i0 + 1, 12, msg12line f pc⟩] else []
        let rc := rcScan (lines.drop (i0 + 1)) 0 false 0
        let r10 : List Issue :=
          if rc > 2 then [⟨p, i0 + 1, 10, msg10 f rc⟩] else []
        r2f ++ r12 ++ r10
    let r2v : List Issue :=
      match varDeclMatch line with
      | none => []
      | some v => if styleOk v then [] else [⟨p, i0 + 1, 2, msg2var v⟩]
    r3 ++ r0 ++ rf ++ r2v

/-! ## The span pass (source lines 315-464)

The `while idx < nlines` loop finds a function definition, walks forward
counting braces (on a view with `"…"` literals replaced by `""`), emits the
span-level issues, and resumes after the span's last line.  We split it into
span *detection* (`detectSpans`) and per-span issue *generation*
(`spanIssues`); their concatenation in detection order is exactly the loop's
append sequence. -/

/-- The character loop of lines 339-344 over one line. -/
def braceLine : Int → Bool → List Char → Int × Bool
  | brace, started, [] => (brace, started)
  | brace, started, c :: cs =>
    if c == '{' then braceLine (brace + 1) true cs
    else if c == '}' then braceLine (brace - 1) started cs
    else braceLine brace started cs

/-- The brace walk of lines 330-350 starting at the definition line: returns
`(offset of end_idx from the start line, max_brace, whether the walk broke
at balance)`.  When the walk never rebalances the offset equals the number
of remaining lines (`end_idx = nlines`, the fail-open case). -/
def spanScan : List (List Char) → Int → Bool → Int → Nat × Int × Bool
  | [], _, _, maxb => (0, maxb, false)
  | l :: rest, brace, started, maxb =>
    let lnos := removeQuoted '"' (str "\"\"") l
    let bs := braceLine brace started lnos
    let maxb1 := if bs.2 then max maxb bs.1 else maxb
    if bs.2 && bs.1 == 0 then
      (0, maxb1, true)
    else
      let r := spanScan rest bs.1 bs.2 maxb1
      (r.1 + 1, r.2.1, r.2.2)

/-- One detected function span: start/end line (0-based, inclusive; `fin` is
`lines.length` when braces never rebalance), the maximum brace count, the
name and the stripped parameter-list text (the source strips `group(2)`
at line 328 before any use). -/
structure FSpan where
  start : Nat
  fin : Nat
  maxBrace : Int
  fname : List Char
  params : List Char
deriving DecidableEq, Repr

/-- The scan of the `while` loop's control flow: which spans get processed.
Fuel is one unit per loop iteration (`idx` strictly increases, so
`lines.length + 1` units always suffice). -/
def detectSpansF (lines : List (List Char)) : Nat → Nat → List FSpan
  | 0, _ => []
  | fuel + 1, idx =>
    if idx < lines.length then
      let st := pystrip (lines.getD idx [])
      if begins (str "#") st then
        detectSpansF lines fuel (idx + 1)
      else
        match funcDefMatch st with
        | none => detectSpansF lines fuel (idx + 1)
        | some (f, raw) =>
          let sc := spanScan (lines.drop idx) 0 false 0
          let e := idx + sc.1
          ⟨idx, e, sc.2.1, f, pystrip raw⟩ :: detectSpansF lines fuel (e + 1)
    else []

def detectSpans (lines : List (List Char)) : List FSpan :=
  detectSpansF lines (lines.length + 1) 0

/-- `"\n".join(lines[s:e+1])` (when `e = lines.length`, the unbalanced case,
this is `"\n".join(lines[s:])`, as in line 382). -/
def bodyText (lines : List (List Char)) (s e : Nat) : List Char :=
  List.intercalate (str "\n") ((lines.drop s).take (e + 1 - s))

/-- Parameter-name extraction for rule 18 (lines 368-381): split the
parameter text on commas, take each part's last whitespace token, delete
`*`, strip, delete `[`, `]` and `.` characters. -/
def paramName1 (part : List Char) : Option (List Char) :=
  match (splitWs part).getLast? with
  | none => none
  | some tok =>
    let n1 := pystrip (tok.filter (fun c => c != '*'))
    let n2 := n1.filter (fun c => !(c == '[' || c == ']' || c == '.'))
    if n2.isEmpty then none else some n2

def paramNames (params : List Char) : List (List Char) :=
  if params.isEmpty || params == str "void" then []
  else ((splitChar ',' params).map pystrip).filterMap paramName1

/-- `\d+\.\d+` is present iff some digit, `.`, digit occur consecutively
(the last digit of the integer run and the first of the fractional run). -/
def floatLit : List Char → Bool
  | [] => false
  | a :: rest =>
    (match rest with
     | '.' :: b :: _ => isDigitCh a && isDigitCh b
     | _ => false) ||
    floatLit rest

/-- `==|>=|<=` as a search. -/
def cmpOp (l : List Char) : Bool :=
  containsSub (str "==") l || containsSub (str ">=") l || containsSub (str "<=") l

/-- The rule-8 context window `lines[max(s, k-3):min(n, k+4)]`, joined. -/
def scanfContext (lines : List (List Char)) (s k : Nat) : List Char :=
  let lo := max s (k - 3)
  let hi := min lines.length (k + 4)
  List.intercalate (str "\n") ((lines.drop lo).take (hi - lo))

/-- The guard test of line 392 (pure substring containment, so e.g. `iffy`
counts as `if`). -/
def r8guarded (ctx : List Char) : Bool :=
  containsSub (str "==") ctx || containsSub (str "!=") ctx ||
  containsSub (str "if") ctx || containsSub (str "return") ctx ||
  containsSub (str "=") ctx

/-- All span-level issues for one detected span, in source append order:
rule 4, rule 12 (nesting), rule 12 (parameter count), rule 18, rule 8, the
rule-15 block — which computes its `checked` flag but whose
`issues.append` (lines 449-450) is commented out, so it contributes no
issues — then rules 25/26 and rule 14.  The body-line loops all run over
`range(start_idx, min(end_idx+1, nlines))`. -/
def spanIssues (p : String) (lines : List (List Char)) (sp : FSpan) : List Issue :=
  let n := lines.length
  let funcLen := sp.fin - sp.start + 1
  let r4 : List Issue :=
    if funcLen > 30 then [⟨p, sp.start + 1, 4, msg4 sp.fname funcLen⟩] else []
  let nesting : Int := max 0 (sp.maxBrace - 1)
  let r12n : List Issue :=
    if nesting > 3 then [⟨p, sp.start + 1, 12, msg12nest sp.fname nesting.toNat⟩] else []
  let pc := paramCount sp.params
  let r12p : List Issue :=
    if pc > 5 then [⟨p, sp.start + 1, 12, msg12span sp.fname pc⟩] else []
  let body := bodyText lines sp.start sp.fin
  let r18 : List Issue :=
    ((paramNames sp.params).filter (fun pn => !wordBoundSearch pn body)).map
      (fun pn => ⟨p, sp.start + 1, 18, msg18 pn sp.fname⟩)
  let ks := (List.range (min (sp.fin + 1) n - sp.start)).map (· + sp.start)
  let r8 : List Issue := ks.filterMap (fun k =>
    if wordParenSearch (str "scanf") (lines.getD k []) &&
        !r8guarded (scanfContext lines sp.start k) then
      some ⟨p, k + 1, 8, msg8⟩
    else none)
  let r2526 : List Issue := ks.flatMap (fun k =>
    let l := lines.getD k []
    (if wordParenSearch (str "exit") l then [⟨p, k + 1, 25, msg25⟩] else []) ++
    (if wordBoundSearch (str "goto") l then [⟨p, k + 1, 26, msg26⟩] else []))
  let r14 : List Issue := ks.filterMap (fun k =>
    let l := lines.getD k []
    if floatLit l && cmpOp l then some ⟨p, k + 1, 14, msg14⟩ else none)
  r4 ++ r12n ++ r12p ++ r18 ++ r8 ++ r2526 ++ r14

/-! ## The rule-15 lookahead and its out-of-bounds access

The rule-15 block (source lines 394-450) walks the span; on a line matching
the assignment pattern of line 401 (and not the `if/while (!((v = malloc(…`
pattern of line 398, which `continue`s) it runs
`for t in range(k+1, min(k+11, end_idx+1)): check_line = lines[t]`.
`end_idx` is *not* clamped to `nlines` here (unlike the enclosing loop), so
when the span is unbalanced (`end_idx = nlines`) and the assignment sits on
one of the last lines, `lines[t]` is evaluated for `t = nlines`, raising
`IndexError`.  `rule15OOB` below decides a sufficient condition for that
crash: the *first* lookahead index `k+1` is already past the end (then the
access happens before any of the guard patterns can `break` the loop). -/

def mallocKws : List (List Char) := [str "malloc", str "realloc", str "calloc"]

/-- `\b(malloc|realloc|calloc)\s*\(` searched from a position with preceding
character `prev`. -/
def mallocCallSearch (prev : Option Char) (s : List Char) : Bool :=
  mallocKws.any (fun kw => wordParenAux kw prev s)

/-- The line-401 pattern `([A-Za-z_][A-Za-z0-9_]*)\s*=\s*.*\b(malloc|realloc|calloc)\s*\(`
at the current position (no boundary precedes the group; after the `=`, the
`\s*.*` consume anything, so the call is searched in the line's remainder). -/
def mallocAssignHere : List Char → Bool
  | [] => false
  | c :: cs =>
    if isIdentStartCh c then
      match (cs.dropWhile isAsciiWordCh).dropWhile isSpaceCh with
      | '=' :: r2 => mallocCallSearch (some '=') r2
      | _ => false
    else false

def mallocAssignHit : List Char → Bool
  | [] => false
  | c :: cs => mallocAssignHere (c :: cs) || mallocAssignHit cs

/-- `\(*\s*([A-Za-z_][A-Za-z0-9_]*)\s*=\s*(malloc|realloc|calloc)\s*\(`
(the tail of the line-398 pattern, after `!\s*`). -/
def mallocCondAfterBang (t : List Char) : Bool :=
  match identTake ((t.dropWhile (fun c => c == '(')).dropWhile isSpaceCh) with
  | some (_, r) =>
    (match r.dropWhile isSpaceCh with
     | '=' :: r2 =>
       mallocKws.any (fun kw =>
         match wordAt (fun a b => a == b) kw (r2.dropWhile isSpaceCh) with
         | some r4 => (r4.dropWhile isSpaceCh).head? == some '('
         | none => false)
     | _ => false)
  | none => false

/-- `(if|while)\s*\(\s*!\s*` then `mallocCondAfterBang`. -/
def condKwTail (rest : List Char) : Bool :=
  match rest.dropWhile isSpaceCh with
  | '(' :: r1 =>
    (match r1.dropWhile isSpaceCh with
     | '!' :: r2 => mallocCondAfterBang (r2.dropWhile isSpaceCh)
     | _ => false)
  | _ => false

/-- The line-398 search `\b(if|while)\s*\(\s*!\s*\(*\s*(…)\s*=\s*(malloc|…)\s*\(`. -/
def mallocCondHit : Option Char → List Char → Bool
  | _, [] => false
  | prev, c :: cs =>
    ((isWordOpt prev != isWordOpt (some c)) &&
      ((match wordAt (fun a b => a == b) (str "if") (c :: cs) with
        | some r => condKwTail r
        | none => false) ||
       (match wordAt (fun a b => a == b) (str "while") (c :: cs) with
        | some r => condKwTail r
        | none => false))) ||
    mallocCondHit (some c) cs

/-- A sufficient condition for the rule-15 block to raise `IndexError` on
the span `sp`: some span line `k` matches the assignment pattern (and not
the `continue`-ing condition pattern), the lookahead range
`range(k+1, min(k+11, end_idx+1))` is non-empty, and its first index `k+1`
is already `≥ nlines` — the loop body's very first statement
`check_line = lines[t]` then raises before any guard pattern is consulted. -/
def rule15OOB (lines : List (List Char)) (sp : FSpan) : Bool :=
  let n := lines.length
  let ks := (List.range (min (sp.fin + 1) n - sp.start)).map (· + sp.start)
  ks.any (fun k =>
    let l := lines.getD k []
    !mallocCondHit none l && mallocAssignHit l &&
    decide (k + 1 < min (k + 11) (sp.fin + 1)) && decide (n ≤ k + 1))

/-! ## Rules 5 and 21 and the global-variable section -/

/-- Rule 5 on one line (lines 467-475): skipped when the stripped line
starts with `#`, or `enum` occurs anywhere, or `define` occurs in the
lowercased line (Lean's `Char.toLower` lowercases ASCII only; the needle is
ASCII, so containment agrees with Python on the inputs at hand). -/
def rule5Line (p : String) (i0 : Nat) (l : List Char) : List Issue :=
  if begins (str "#") (pystrip l) || containsSub (str "enum") l ||
      containsSub (str "define") (l.map Char.toLower) then []
  else
    ((numberLiterals l).filter
        (fun v => !(v == str "0" || v == str "1" || v == str "-1"))).map
      (fun v => ⟨p, i0 + 1, 5, msg5 v⟩)

/-- `\b(\w+)\s*=\s*\1\s*<op>\s*<z>\b` at the current position (rule 21); the
`(\w+)` run is maximal — a shorter capture leaves a word character where
`\s*=` must match, so backtracking it never helps. -/
def r21Here (op z : Char) : List Char → Bool
  | [] => false
  | c :: cs =>
    if isWordCh c then
      let w := c :: cs.takeWhile isWordCh
      match (cs.dropWhile isWordCh).dropWhile isSpaceCh with
      | '=' :: r2 =>
        (match wordAt (fun a b => a == b) w (r2.dropWhile isSpaceCh) with
         | some r3 =>
           (match r3.dropWhile isSpaceCh with
            | o :: r4 =>
              o == op &&
              (match r4.dropWhile isSpaceCh with
               | d :: r5 => d == z && !isWordOpt r5.head?
               | [] => false)
            | [] => false)
         | none => false)
      | _ => false
    else false

def r21Search (op z : Char) : Option Char → List Char → Bool
  | _, [] => false
  | prev, c :: cs =>
    (!isWordOpt prev && r21Here op z (c :: cs)) || r21Search op z (some c) cs

/-- Rule 21's line test (line 479): `x = x + 0` or `x = x * 1`. -/
def redundantComp (l : List Char) : Bool :=
  r21Search '+' '0' none l || r21Search '*' '1' none l

/-- The global-variable section (source lines 482-627): two nested scans of
the region before the first function collect candidate declarations and
match them against the rule-27 variable pattern, but both `issues.append`
calls (lines 620-625 and the earlier copy) are commented out, so the whole
section appends nothing; its only observable effect on the engine's output
is the empty list. -/
def globalScanIssues (_lines : List (List Char)) : List Issue := []

/-! ## The engine -/

/-- All issues `run_checks_on_files` appends for one file, in order: the
per-line pass, the span pass, rule 5, rule 21, the (silent) global scan. -/
def checkFile (p : String) (lines : List (List Char)) : List Issue :=
  let linePass := (List.range lines.length).flatMap (fun i0 => lineChecks p lines i0)
  let spanPass := (detectSpans lines).flatMap (fun sp => spanIssues p lines sp)
  let r5 := (List.range lines.length).flatMap (fun i0 => rule5Line p i0 (lines.getD i0 []))
  let r21 := (List.range lines.length).flatMap (fun i0 =>
    if redundantComp (lines.getD i0 []) then [⟨p, i0 + 1, 21, msg21⟩] else [])
  linePass ++ spanPass ++ r5 ++ r21 ++ globalScanIssues lines

/-- `run_checks_on_files`: the input dict is an ordered association list
(Python dicts preserve insertion order); the output list concatenates each
file's issues in that order. -/
def runChecksOnFiles (fm : List (String × List (List Char))) : List Issue :=
  fm.flatMap (fun pr => checkFile pr.1 pr.2)

/-! # Helper lemmas

## The rule-0 pattern is dead

After the `$$` anchors the remaining text is `[]` or `['\n']`, and
`[^$$]+\]` still needs a non-`$` character followed by `]`. -/

theorem brackTail_of_dollarHere {t : List Char} (h : dollarHere t = true) :
    brackTail t = none := by
  have h2 : t = [] ∨ t = ['\n'] := by simpa [dollarHere] using h
  rcases h2 with h2 | h2 <;> subst h2 <;> rfl

theorem dollarTail_eq_none (t : List Char) : dollarTail t = none := by
  unfold dollarTail
  cases hd : dollarHere t with
  | false => simp [hd]
  | true => simp [hd, brackTail_of_dollarHere hd]

theorem ampTail_eq_none (t : List Char) : ampTail t = none := by
  unfold ampTail
  split
  · split
    · exact dollarTail_eq_none _
    · rfl
  · rfl

theorem rule0Aux_eq_none (s : List Char) : rule0Aux s = none := by
  induction s with
  | nil => rfl
  | cons c cs ih =>
    unfold rule0Aux
    rw [show (if isSpaceCh c then ampTail cs else none) = none by
          split
          · exact ampTail_eq_none cs
          · rfl]
    exact ih

theorem rule0Search_eq_none (s : List Char) : rule0Search s = none := by
  unfold rule0Search
  rw [ampTail_eq_none]
  exact rule0Aux_eq_none s

/-! ## Distinguishing messages

Two different emission sites can share a rule id (rules 2 and 12); their
messages differ already in the first character. -/

theorem msg2func_head (f : List Char) : (msg2func f).head? = some 'Ф' := rfl

theorem msg2var_head (v : List Char) : (msg2var v).head? = some 'П' := rfl

theorem msg12line_head (f : List Char) (n : Nat) :
    (msg12line f n).head? = some 'У' := rfl

theorem msg12span_head (f : List Char) (n : Nat) :
    (msg12span f n).head? = some 'Ф' := rfl

theorem msg2func_ne_msg2var (f v : List Char) : msg2func f ≠ msg2var v := by
  intro h
  have h2 := congrArg List.head? h
  rw [msg2func_head, msg2var_head] at h2
  exact absurd h2 (by decide)

theorem msg2var_ne_msg2func (v f : List Char) : msg2var v ≠ msg2func f :=
  fun h => msg2func_ne_msg2var f v h.symm

theorem msg12line_ne_msg12span (f : List Char) (n : Nat) (g : List Char) (m : Nat) :
    msg12line f n ≠ msg12span g m := by
  intro h
  have h2 := congrArg List.head? h
  rw [msg12line_head, msg12span_head] at h2
  exact absurd h2 (by decide)

/-- The rule-18 message determines the parameter name (append cancellation
on both sides). -/
theorem msg18_inj {a b f : List Char} (h : msg18 a f = msg18 b f) : a = b := by
  unfold msg18 at h
  exact List.append_cancel_left
    (List.append_cancel_right (List.append_cancel_right (List.append_cancel_right h)))

/-! ## Small membership helpers -/

theorem mem_filterMap_ite {α : Type} {c : α → Bool} {g : α → Issue} {l : List α} {x : Issue}
    (h : x ∈ l.filterMap (fun a => if c a then some (g a) else none)) :
    ∃ a, a ∈ l ∧ c a = true ∧ x = g a := by
  rcases List.mem_filterMap.mp h with ⟨a, ha, he⟩
  by_cases hc : c a = true
  · rw [if_pos hc] at he
    exact ⟨a, ha, hc, (Option.some_inj.mp he).symm⟩
  · rw [if_neg hc] at he
    cases he

theorem mem_ite_singleton {c : Prop} [Decidable c] {i x : Issue}
    (h : x ∈ (if c then [i] else [])) : c ∧ x = i := by
  split at h
  · exact ⟨by assumption, List.mem_singleton.mp h⟩
  · cases h

/-! # Claims -/

/-- C1: the claim (and the spec's test property) says the line
`int x = arr[5] + &y[2];` must produce a rule-0 issue.  It does not: the
rule-0 pattern written in the source, `(^|\s)&\s*([A-Za-z_][A-Za-z0-9_]*)\s*$$[^$$]+\]`,
reads `$$` where the surrounding code (the `end_pos` check for `)` / `*`
after the bracket) shows `\[[^\]]+\]` was meant; `$` is an end anchor, so
after it `[^$$]+\]` can never consume the required characters, the pattern
matches no line at all, and rule 0 never fires — on the first test line just
as on `foo(&y[2])`. -/
theorem claim1_rule0_dead :
    (∀ s : List Char, rule0Search s = none) ∧
    (runChecksOnFiles [("f.c", [str "int x = arr[5] + &y[2];"])]).filter
        (fun i => i.rule == 0) = [] ∧
    (runChecksOnFiles [("f.c", [str "foo(&y[2])"])]).filter
        (fun i => i.rule == 0) = [] :=
  ⟨rule0Search_eq_none, by rfl, by rfl⟩

/-- C2 (counterexample): on the line `x = 1; // vvod` the transliteration
token `vvod` occurs only inside the trailing line comment (the
comment-stripped view no longer contains it), and on `puts("vvod");` only
inside a string literal (the literal-stripped view no longer contains it);
the engine still emits a rule-3 issue for each, refuting "no rule detector
ever fires on text that sits only inside a comment or literal". -/
theorem claim2_counterexample :
    (wordBoundSearchCI (str "vvod") (subLineComment (str "x = 1; // vvod")) = false ∧
     (runChecksOnFiles [("a.c", [str "x = 1; // vvod"])]).countP
        (fun i => i.rule == 3) = 1) ∧
    (wordBoundSearchCI (str "vvod") (cleanLine (str "puts(\"vvod\");")) = false ∧
     (runChecksOnFiles [("a.c", [str "puts(\"vvod\");"])]).countP
        (fun i => i.rule == 3) = 1) :=
  ⟨⟨rfl, rfl⟩, ⟨rfl, rfl⟩⟩

/-- C2 (amended): comment/literal stripping protects only the rule-0
detector, which matches on the stripped view of the line; every other
detector matches the raw line, so a trigger token occurring only inside a
trailing comment or a string literal still produces an issue (rule 3 on
`x = 1; // vvod` and on `puts("vvod");`).  The only comment-related guard
is that the per-line loop (rules 3, 0, 2, 12, 10) skips a line whose first
non-blank characters are `#`, `//` or `/*`; rules 5 and 21 have no such
guard: rule 5 fires on the pure comment line `// 42` and rule 21 fires even
on `# x = x + 0`. -/
theorem claim2_amended (p : String) (lines : List (List Char)) (i0 : Nat)
    (hs : skipLine (lines.getD i0 []) = true) :
    lineChecks p lines i0 = [] ∧
    (runChecksOnFiles [("a.c", [str "x = 1; // vvod"])]).countP
        (fun i => i.rule == 3) = 1 ∧
    (runChecksOnFiles [("a.c", [str "puts(\"vvod\");"])]).countP
        (fun i => i.rule == 3) = 1 ∧
    (runChecksOnFiles [("a.c", [str "// 42"])]).countP
        (fun i => i.rule == 5) = 1 ∧
    (runChecksOnFiles [("a.c", [str "# x = x + 0"])]).countP
        (fun i => i.rule == 21) = 1 := by
  refine ⟨?_, rfl, rfl, rfl, rfl⟩
  simp only [lineChecks]
  rw [hs]
  simp

/-- Witness for `claim2_amended` at the concrete line `  // vvod massiv`. -/
theorem claim2_amended_witness :
    skipLine ([str "  // vvod massiv"].getD 0 []) = true ∧
    lineChecks "a.c" [str "  // vvod massiv"] 0 = [] :=
  ⟨by rfl, (claim2_amended "a.c" [str "  // vvod massiv"] 0 (by rfl)).1⟩

/-- C3: on a non-skipped line, for the function-definition identifier the
engine detects, and likewise for the variable-declaration identifier, the
rule-2 issue is emitted iff the identifier matches none of the three
accepted styles (`styleOk` is the disjunction of the three anchored
patterns); concretely, declarations of `my_Var2` and of `_foo` (identifiers
matching no style, as is `9bar`) each produce exactly one rule-2 issue. -/
theorem claim3_rule2_styles (p : String) (lines : List (List Char)) (i0 : Nat)
    (hs : skipLine (lines.getD i0 []) = false) :
    (∀ f raw, funcDefMatch (pystrip (lines.getD i0 [])) = some (f, raw) →
      ((⟨p, i0 + 1, 2, msg2func f⟩ : Issue) ∈ lineChecks p lines i0 ↔ styleOk f = false)) ∧
    (∀ v, varDeclMatch (lines.getD i0 []) = some v →
      ((⟨p, i0 + 1, 2, msg2var v⟩ : Issue) ∈ lineChecks p lines i0 ↔ styleOk v = false)) ∧
    (styleOk (str "my_Var2") = false ∧ styleOk (str "_foo") = false ∧
     styleOk (str "9bar") = false) ∧
    (runChecksOnFiles [("a.c", [str "int my_Var2;"])]).countP (fun i => i.rule == 2) = 1 ∧
    (runChecksOnFiles [("a.c", [str "int _foo;"])]).countP (fun i => i.rule == 2) = 1 := by
  refine ⟨?_, ?_, ⟨rfl, rfl, rfl⟩, rfl, rfl⟩
  · intro f raw hf
    simp only [lineChecks, hs, hf, rule0Search_eq_none, Bool.false_eq_true, if_false]
    constructor
    · intro hm
      rcases List.mem_append.mp hm with hm1 | hD
      · rcases List.mem_append.mp hm1 with hm2 | hC
        · rcases List.mem_append.mp hm2 with hA | hB
          · rcases mem_filterMap_ite hA with ⟨t, -, -, he⟩
            exact absurd (congrArg Issue.rule he) (by simp)
          · cases hB
        · rcases List.mem_append.mp hC with hC1 | hC3
          · rcases List.mem_append.mp hC1 with hC2f | hC12
            · cases hst : styleOk f with
              | false => exact rfl
              | true => simp [hst] at hC2f
            · rcases mem_ite_singleton hC12 with ⟨-, he⟩
              exact absurd (congrArg Issue.rule he) (by simp)
          · rcases mem_ite_singleton hC3 with ⟨-, he⟩
            exact absurd (congrArg Issue.rule he) (by simp)
      · revert hD
        cases hv : varDeclMatch (lines.getD i0 []) with
        | none => intro hD; cases hD
        | some v =>
          intro hD
          cases hstv : styleOk v with
          | true => simp [hstv] at hD
          | false =>
            have hD2 : (⟨p, i0 + 1, 2, msg2func f⟩ : Issue) ∈
                (if styleOk v = true then [] else [(⟨p, i0 + 1, 2, msg2var v⟩ : Issue)]) := hD
            rw [if_neg (by simp [hstv])] at hD2
            exact absurd (congrArg Issue.message (List.mem_singleton.mp hD2))
              (msg2func_ne_msg2var f v)
    · intro hst
      have hin : (⟨p, i0 + 1, 2, msg2func f⟩ : Issue) ∈
          (if styleOk f = true then [] else [(⟨p, i0 + 1, 2, msg2func f⟩ : Issue)]) := by
        rw [if_neg (by simp [hst])]
        exact List.mem_singleton.mpr rfl
      exact List.mem_append.mpr (Or.inl (List.mem_append.mpr (Or.inr
        (List.mem_append.mpr (Or.inl (List.mem_append.mpr (Or.inl hin)))))))
  · intro v hv
    simp only [lineChecks, hs, hv, rule0Search_eq_none, Bool.false_eq_true, if_false]
    constructor
    · intro hm
      rcases List.mem_append.mp hm with hm1 | hD
      · rcases List.mem_append.mp hm1 with hm2 | hC
        · rcases List.mem_append.mp hm2 with hA | hB
          · rcases mem_filterMap_ite hA with ⟨t, -, -, he⟩
            exact absurd (congrArg Issue.rule he) (by simp)
          · cases hB
        · revert hC
          cases hff : funcDefMatch (pystrip (lines.getD i0 [])) with
          | none => intro hC; cases hC
          | some fr =>
            intro hC
            have hC0 : (⟨p, i0 + 1, 2, msg2var v⟩ : Issue) ∈
                ((if styleOk fr.1 = true then [] else [(⟨p, i0 + 1, 2, msg2func fr.1⟩ : Issue)]) ++
                  (if paramCount (pystrip fr.2) > 5 then
                    [(⟨p, i0 + 1, 12, msg12line fr.1 (paramCount (pystrip fr.2))⟩ : Issue)]
                   else []) ++
                  (if rcScan (List.drop (i0 + 1) lines) 0 false 0 > 2 then
                    [(⟨p, i0 + 1, 10, msg10 fr.1 (rcScan (List.drop (i0 + 1) lines) 0 false 0)⟩ : Issue)]
                   else [])) := hC
            rcases List.mem_append.mp hC0 with hC1 | hC3
            · rcases List.mem_append.mp hC1 with hC2f | hC12
              · revert hC2f
                cases hstf : styleOk fr.1 with
                | true => intro hC2f; cases hC2f
                | false =>
                  intro hC2f
                  have hC2b : (⟨p, i0 + 1, 2, msg2var v⟩ : Issue) ∈
                      [(⟨p, i0 + 1, 2, msg2func fr.1⟩ : Issue)] := by
                    rwa [if_neg (by simp)] at hC2f
                  exact absurd (congrArg Issue.message (List.mem_singleton.mp hC2b))
                    (msg2var_ne_msg2func v fr.1)
              · rcases mem_ite_singleton hC12 with ⟨-, he⟩
                exact absurd (congrArg Issue.rule he) (by simp)
            · rcases mem_ite_singleton hC3 with ⟨-, he⟩
              exact absurd (congrArg Issue.rule he) (by simp)
      · revert hD
        cases hstv : styleOk v with
        | true => intro hD; cases hD
        | false =>
          intro _
          rfl
    · intro hst
      have hin : (⟨p, i0 + 1, 2, msg2var v⟩ : Issue) ∈
          (if styleOk v = true then [] else [(⟨p, i0 + 1, 2, msg2var v⟩ : Issue)]) := by
        rw [if_neg (by simp [hst])]
        exact List.mem_singleton.mpr rfl
      exact List.mem_append.mpr (Or.inr hin)

/-- Witness for `claim3_rule2_styles` on the declaration `int my_Var2;`. -/
theorem claim3_witness :
    skipLine ([str "int my_Var2;"].getD 0 []) = false ∧
    varDeclMatch ([str "int my_Var2;"].getD 0 []) = some (str "my_Var2") ∧
    (((⟨"a.c", 1, 2, msg2var (str "my_Var2")⟩ : Issue) ∈
        lineChecks "a.c" [str "int my_Var2;"] 0) ↔ styleOk (str "my_Var2") = false) :=
  ⟨rfl, rfl,
    (claim3_rule2_styles "a.c" [str "int my_Var2;"] 0 rfl).2.1 (str "my_Var2") rfl⟩

/-! ## C5: rule 10 (return counting) -/

/-- Three returns directly in the body: the braces sit on the definition
line and the last line only. -/
def c5flat : List (List Char) :=
  [str "int f(int a) \x7b", str "return 1;", str "return 2;", str "return 3;", str "\x7d"]

/-- Three returns inside a nested block opened after the definition line. -/
def c5nested : List (List Char) :=
  [str "int f(int a) \x7b", str "if (a) \x7b", str "return 1;", str "return 2;",
   str "return 3;", str "\x7d", str "\x7d"]

/-- C5 (counterexample): the function in `c5flat` contains three `return`
statements (three of its lines contain the word), yet the engine emits no
rule-10 issue: the scan of lines 271-287 starts at the line after the
definition line, never sees the opening brace that sits on the definition
line, and therefore never starts counting. -/
theorem claim5_counterexample :
    c5flat.countP (fun l => wordBoundSearch (str "return") l) = 3 ∧
    (runChecksOnFiles [("a.c", c5flat)]).countP (fun i => i.rule == 10) = 0 :=
  ⟨rfl, rfl⟩

/-- C5 (amended): for a detected definition line, the number of rule-10
issues from that line is 1 when `rcScan` — the source's scan, which starts
at the *next* line, counts `return`s only after seeing a `{` there and stops
when that brace count returns to zero — exceeds 2, and 0 otherwise; when it
fires it reports exactly the scanned count.  Three returns inside a nested
block fire once with count 3 (`c5nested`); three returns directly in a body
whose brace sits on the definition line are never counted and do not fire
(`claim5_counterexample`). -/
theorem claim5_amended (p : String) (lines : List (List Char)) (i0 : Nat)
    (f raw : List Char)
    (hs : skipLine (lines.getD i0 []) = false)
    (hf : funcDefMatch (pystrip (lines.getD i0 [])) = some (f, raw)) :
    (lineChecks p lines i0).countP (fun i => i.rule == 10) =
      (if rcScan (lines.drop (i0 + 1)) 0 false 0 > 2 then 1 else 0) ∧
    (rcScan (lines.drop (i0 + 1)) 0 false 0 > 2 →
      (⟨p, i0 + 1, 10, msg10 f (rcScan (lines.drop (i0 + 1)) 0 false 0)⟩ : Issue) ∈
        lineChecks p lines i0) ∧
    (runChecksOnFiles [("a.c", c5nested)]).countP (fun i => i.rule == 10) = 1 ∧
    (⟨"a.c", 1, 10, msg10 (str "f") 3⟩ : Issue) ∈ runChecksOnFiles [("a.c", c5nested)] := by
  refine ⟨?_, ?_, rfl, by decide⟩
  · simp only [lineChecks, hs, hf, rule0Search_eq_none, Bool.false_eq_true, if_false,
      List.countP_append]
    have h3 : (translitTokens.filterMap (fun t =>
        if wordBoundSearchCI t (lines.getD i0 []) = true then
          some (⟨p, i0 + 1, 3, msg3 t⟩ : Issue) else none)).countP
        (fun i => i.rule == 10) = 0 := by
      rw [List.countP_eq_zero]
      intro a ha
      rcases mem_filterMap_ite ha with ⟨t, -, -, he⟩
      simp [he]
    rw [h3]
    have h2f : (if styleOk f = true then []
        else [(⟨p, i0 + 1, 2, msg2func f⟩ : Issue)]).countP (fun i => i.rule == 10) = 0 := by
      split <;> simp
    rw [h2f]
    have h12 : (if paramCount (pystrip raw) > 5 then
        [(⟨p, i0 + 1, 12, msg12line f (paramCount (pystrip raw))⟩ : Issue)]
        else []).countP (fun i => i.rule == 10) = 0 := by
      split <;> simp
    rw [h12]
    have h10 : (if rcScan (List.drop (i0 + 1) lines) 0 false 0 > 2 then
        [(⟨p, i0 + 1, 10, msg10 f (rcScan (List.drop (i0 + 1) lines) 0 false 0)⟩ : Issue)]
        else []).countP (fun i => i.rule == 10) =
        (if rcScan (List.drop (i0 + 1) lines) 0 false 0 > 2 then 1 else 0) := by
      split <;> simp
    rw [h10]
    have h2v : List.countP (fun i => i.rule == 10)
        (match varDeclMatch (lines.getD i0 []) with
         | none => ([] : List Issue)
         | some v => if styleOk v = true then []
             else [(⟨p, i0 + 1, 2, msg2var v⟩ : Issue)]) = 0 := by
      cases varDeclMatch (lines.getD i0 []) with
      | none => rfl
      | some v => split <;> simp
    rw [h2v]
    simp
  · intro hrc
    have hin : (⟨p, i0 + 1, 10, msg10 f (rcScan (lines.drop (i0 + 1)) 0 false 0)⟩ : Issue) ∈
        (if rcScan (List.drop (i0 + 1) lines) 0 false 0 > 2 then
          [(⟨p, i0 + 1, 10, msg10 f (rcScan (List.drop (i0 + 1) lines) 0 false 0)⟩ : Issue)]
         else []) := by
      rw [if_pos hrc]
      exact List.mem_singleton.mpr rfl
    simp only [lineChecks, hs, hf, rule0Search_eq_none, Bool.false_eq_true, if_false]
    exact List.mem_append.mpr (Or.inl (List.mem_append.mpr (Or.inr
      (List.mem_append.mpr (Or.inr hin)))))

/-- Witness for `claim5_amended` on `c5nested`. -/
theorem claim5_witness :
    skipLine (c5nested.getD 0 []) = false ∧
    funcDefMatch (pystrip (c5nested.getD 0 [])) = some (str "f", str "int a") ∧
    rcScan (c5nested.drop 1) 0 false 0 > 2 ∧
    (⟨"a.c", 1, 10, msg10 (str "f") (rcScan (c5nested.drop 1) 0 false 0)⟩ : Issue) ∈
      lineChecks "a.c" c5nested 0 :=
  ⟨rfl, rfl, by decide,
    (claim5_amended "a.c" c5nested 0 (str "f") (str "int a") rfl rfl).2.1 (by decide)⟩

/-! ## Span-scan bounds and the detection invariant -/

theorem spanScan_le (ls : List (List Char)) : ∀ b st m, (spanScan ls b st m).1 ≤ ls.length := by
  induction ls with
  | nil => intro b st m; simp [spanScan]
  | cons l rest ih =>
    intro b st m
    simp only [spanScan]
    split
    · simp
    · simp only [List.length_cons]
      exact Nat.add_le_add_right (ih _ _ _) 1

theorem spanScan_no_break (ls : List (List Char)) :
    ∀ b st m, (spanScan ls b st m).2.2 = false → (spanScan ls b st m).1 = ls.length := by
  induction ls with
  | nil => intro b st m _; rfl
  | cons l rest ih =>
    intro b st m h
    simp only [spanScan] at h ⊢
    split at h
    case isTrue => simp at h
    case isFalse hc =>
      rw [if_neg hc]
      simp only [List.length_cons]
      exact congrArg (· + 1) (ih _ _ _ h)

theorem detectSpans_inv (lines : List (List Char)) :
    ∀ fuel idx sp, sp ∈ detectSpansF lines fuel idx →
      sp.start < lines.length ∧ sp.start ≤ sp.fin ∧ sp.fin ≤ lines.length ∧
      ∃ raw, funcDefMatch (pystrip (lines.getD sp.start [])) = some (sp.fname, raw) ∧
        sp.params = pystrip raw := by
  intro fuel
  induction fuel with
  | zero => intro idx sp h; cases h
  | succ fuel ih =>
    intro idx sp h
    simp only [detectSpansF] at h
    split at h
    case isTrue hidx =>
      split at h
      · exact ih _ _ h
      · split at h
        case h_1 => exact ih _ _ h
        case h_2 f raw hmatch =>
          rcases List.mem_cons.mp h with rfl | h2
          · refine ⟨hidx, Nat.le_add_right _ _, ?_, raw, hmatch, rfl⟩
            have hle := spanScan_le (lines.drop idx) 0 false 0
            rw [List.length_drop] at hle
            show idx + (spanScan (List.drop idx lines) 0 false 0).1 ≤ lines.length
            omega
          · exact ih _ _ h2
    case isFalse => cases h

/-- Entry-point form of the invariant, for `detectSpans`. -/
theorem detectSpans_inv2 {lines : List (List Char)} {sp : FSpan}
    (h : sp ∈ detectSpans lines) :
    sp.start < lines.length ∧ sp.start ≤ sp.fin ∧ sp.fin ≤ lines.length ∧
    ∃ raw, funcDefMatch (pystrip (lines.getD sp.start [])) = some (sp.fname, raw) ∧
      sp.params = pystrip raw :=
  detectSpans_inv lines _ 0 sp h

/-! ## C4: rule 18 (unused parameters) -/

def c4file : List (List Char) :=
  [str "int f(int v[10]) \x7b", str "return 0;", str "\x7d"]

/-- The span the engine detects for `c4file`. -/
def c4span : FSpan := ⟨0, 2, 1, str "f", str "int v[10]"⟩

/-- C4: for every detected span and every parameter name extracted from its
parameter list, the rule-18 issue for that name is emitted exactly when the
name never occurs as a whole word in the span text
`"\n".join(lines[start:end+1])` — what the source calls `body_text`, which
includes the signature line — and an emitted issue reaches the engine
output.  In particular, on `int f(int v[10]) { return 0; }` the parameter
`v` is declared and never used in the body, and a rule-18 issue is emitted:
the extraction turns the token `v[10]` into the name `v10` (deleting `[`,
`]`, `.`), which occurs nowhere, so the detector fires. -/
theorem claim4_rule18 (p : String) (lines : List (List Char))
    (fm : List (String × List (List Char))) (sp : FSpan) (pn : List Char)
    (hfm : (p, lines) ∈ fm) (hsp : sp ∈ detectSpans lines)
    (hpn : pn ∈ paramNames sp.params) :
    (((⟨p, sp.start + 1, 18, msg18 pn sp.fname⟩ : Issue) ∈ spanIssues p lines sp ↔
      wordBoundSearch pn (bodyText lines sp.start sp.fin) = false) ∧
    (wordBoundSearch pn (bodyText lines sp.start sp.fin) = false →
      (⟨p, sp.start + 1, 18, msg18 pn sp.fname⟩ : Issue) ∈ runChecksOnFiles fm)) ∧
    (wordBoundSearch (str "v") (bodyText c4file 1 2) = false ∧
     (runChecksOnFiles [("a.c", c4file)]).countP (fun i => i.rule == 18) = 1 ∧
     (⟨"a.c", 1, 18, msg18 (str "v10") (str "f")⟩ : Issue) ∈
       runChecksOnFiles [("a.c", c4file)]) := by
  refine ⟨?_, rfl, rfl, by decide⟩
  have hiff : (⟨p, sp.start + 1, 18, msg18 pn sp.fname⟩ : Issue) ∈ spanIssues p lines sp ↔
      wordBoundSearch pn (bodyText lines sp.start sp.fin) = false := by
    simp only [spanIssues]
    constructor
    · intro hm
      rcases List.mem_append.mp hm with hm1 | h14
      · rcases List.mem_append.mp hm1 with hm2 | h26
        · rcases List.mem_append.mp hm2 with hm3 | h8
          · rcases List.mem_append.mp hm3 with hm4 | h18
            · rcases List.mem_append.mp hm4 with hm5 | h12p
              · rcases List.mem_append.mp hm5 with h4 | h12n
                · rcases mem_ite_singleton h4 with ⟨-, he⟩
                  exact absurd (congrArg Issue.rule he) (by simp)
                · rcases mem_ite_singleton h12n with ⟨-, he⟩
                  exact absurd (congrArg Issue.rule he) (by simp)
              · rcases mem_ite_singleton h12p with ⟨-, he⟩
                exact absurd (congrArg Issue.rule he) (by simp)
            · rcases List.mem_map.mp h18 with ⟨a, ha, he⟩
              rcases List.mem_filter.mp ha with ⟨-, hnf⟩
              have hpe : pn = a := msg18_inj (congrArg Issue.message he.symm)
              subst hpe
              simpa using hnf
          · rcases List.mem_filterMap.mp h8 with ⟨k, -, he⟩
            revert he
            split
            · intro he
              exact absurd (congrArg Issue.rule (Option.some_inj.mp he)) (by simp)
            · intro he; cases he
        · rcases List.mem_flatMap.mp h26 with ⟨k, -, hin⟩
          rcases List.mem_append.mp hin with h25 | h26b
          · rcases mem_ite_singleton h25 with ⟨-, he⟩
            exact absurd (congrArg Issue.rule he) (by simp)
          · rcases mem_ite_singleton h26b with ⟨-, he⟩
            exact absurd (congrArg Issue.rule he) (by simp)
      · rcases List.mem_filterMap.mp h14 with ⟨k, -, he⟩
        revert he
        split
        · intro he
          exact absurd (congrArg Issue.rule (Option.some_inj.mp he)) (by simp)
        · intro he; cases he
    · intro hnf
      have hin : (⟨p, sp.start + 1, 18, msg18 pn sp.fname⟩ : Issue) ∈
          ((paramNames sp.params).filter
            (fun q => !wordBoundSearch q (bodyText lines sp.start sp.fin))).map
            (fun q => (⟨p, sp.start + 1, 18, msg18 q sp.fname⟩ : Issue)) :=
        List.mem_map.mpr ⟨pn, List.mem_filter.mpr ⟨hpn, by simp [hnf]⟩, rfl⟩
      exact List.mem_append.mpr (Or.inl (List.mem_append.mpr (Or.inl
        (List.mem_append.mpr (Or.inl (List.mem_append.mpr (Or.inr hin)))))))
  refine ⟨hiff, fun hnf => ?_⟩
  have hspan : (⟨p, sp.start + 1, 18, msg18 pn sp.fname⟩ : Issue) ∈
      (detectSpans lines).flatMap (fun s => spanIssues p lines s) :=
    List.mem_flatMap.mpr ⟨sp, hsp, hiff.mpr hnf⟩
  have hcf : (⟨p, sp.start + 1, 18, msg18 pn sp.fname⟩ : Issue) ∈ checkFile p lines := by
    simp only [checkFile]
    exact List.mem_append.mpr (Or.inl (List.mem_append.mpr (Or.inl
      (List.mem_append.mpr (Or.inl (List.mem_append.mpr (Or.inr hspan)))))))
  exact List.mem_flatMap.mpr ⟨(p, lines), hfm, hcf⟩

/-- Witness for `claim4_rule18` on `c4file`. -/
theorem claim4_witness :
    ("a.c", c4file) ∈ [("a.c", c4file)] ∧
    c4span ∈ detectSpans c4file ∧
    str "v10" ∈ paramNames c4span.params ∧
    (((⟨"a.c", 1, 18, msg18 (str "v10") (str "f")⟩ : Issue) ∈
        spanIssues "a.c" c4file c4span ↔
      wordBoundSearch (str "v10") (bodyText c4file 0 2) = false)) :=
  ⟨List.mem_singleton.mpr rfl, by decide, by decide,
    (claim4_rule18 "a.c" c4file [("a.c", c4file)] c4span (str "v10")
      (List.mem_singleton.mpr rfl) (by decide) (by decide)).1.1⟩

/-! ## Membership of per-line and per-span issues in the engine output -/

theorem spanIssue_mem_run {p : String} {lines : List (List Char)}
    {fm : List (String × List (List Char))} {sp : FSpan} {x : Issue}
    (hfm : (p, lines) ∈ fm) (hsp : sp ∈ detectSpans lines)
    (hx : x ∈ spanIssues p lines sp) : x ∈ runChecksOnFiles fm := by
  have hspan : x ∈ (detectSpans lines).flatMap (fun s => spanIssues p lines s) :=
    List.mem_flatMap.mpr ⟨sp, hsp, hx⟩
  have hcf : x ∈ checkFile p lines := by
    simp only [checkFile]
    exact List.mem_append.mpr (Or.inl (List.mem_append.mpr (Or.inl
      (List.mem_append.mpr (Or.inl (List.mem_append.mpr (Or.inr hspan)))))))
  exact List.mem_flatMap.mpr ⟨(p, lines), hfm, hcf⟩

theorem lineIssue_mem_run {p : String} {lines : List (List Char)}
    {fm : List (String × List (List Char))} {i0 : Nat} {x : Issue}
    (hfm : (p, lines) ∈ fm) (hi : i0 < lines.length)
    (hx : x ∈ lineChecks p lines i0) : x ∈ runChecksOnFiles fm := by
  have hlp : x ∈ (List.range lines.length).flatMap (fun j => lineChecks p lines j) :=
    List.mem_flatMap.mpr ⟨i0, List.mem_range.mpr hi, hx⟩
  have hcf : x ∈ checkFile p lines := by
    simp only [checkFile]
    exact List.mem_append.mpr (Or.inl (List.mem_append.mpr (Or.inl
      (List.mem_append.mpr (Or.inl (List.mem_append.mpr (Or.inl hlp)))))))
  exact List.mem_flatMap.mpr ⟨(p, lines), hfm, hcf⟩

theorem spanIssues_countP_rule4 (p : String) (lines : List (List Char)) (sp : FSpan) :
    (spanIssues p lines sp).countP (fun i => i.rule == 4) =
      (if sp.fin - sp.start + 1 > 30 then 1 else 0) := by
  simp only [spanIssues, List.countP_append]
  have h4 : List.countP (fun i => i.rule == 4)
      (if sp.fin - sp.start + 1 > 30 then
        [(⟨p, sp.start + 1, 4, msg4 sp.fname (sp.fin - sp.start + 1)⟩ : Issue)]
       else []) = (if sp.fin - sp.start + 1 > 30 then 1 else 0) := by
    split <;> simp
  rw [h4]
  have h12n : List.countP (fun i => i.rule == 4)
      (if (max 0 (sp.maxBrace - 1) : Int) > 3 then
        [(⟨p, sp.start + 1, 12, msg12nest sp.fname (max 0 (sp.maxBrace - 1)).toNat⟩ : Issue)]
       else []) = 0 := by
    split <;> simp
  rw [h12n]
  have h12p : List.countP (fun i => i.rule == 4)
      (if paramCount sp.params > 5 then
        [(⟨p, sp.start + 1, 12, msg12span sp.fname (paramCount sp.params)⟩ : Issue)]
       else []) = 0 := by
    split <;> simp
  rw [h12p]
  have h18 : List.countP (fun i => i.rule == 4)
      (((paramNames sp.params).filter
          (fun q => !wordBoundSearch q (bodyText lines sp.start sp.fin))).map
        (fun q => (⟨p, sp.start + 1, 18, msg18 q sp.fname⟩ : Issue))) = 0 := by
    rw [List.countP_eq_zero]
    intro x hx
    rcases List.mem_map.mp hx with ⟨q, -, he⟩
    simp [← he]
  rw [h18]
  have h8 : List.countP (fun i => i.rule == 4)
      (((List.range (min (sp.fin + 1) lines.length - sp.start)).map (· + sp.start)).filterMap
        (fun k => if wordParenSearch (str "scanf") (lines.getD k []) &&
            !r8guarded (scanfContext lines sp.start k) then
          some (⟨p, k + 1, 8, msg8⟩ : Issue) else none)) = 0 := by
    rw [List.countP_eq_zero]
    intro x hx
    rcases mem_filterMap_ite hx with ⟨k, -, -, he⟩
    simp [he]
  rw [h8]
  have h2526 : List.countP (fun i => i.rule == 4)
      (((List.range (min (sp.fin + 1) lines.length - sp.start)).map (· + sp.start)).flatMap
        (fun k =>
          (if wordParenSearch (str "exit") (lines.getD k []) then
            [(⟨p, k + 1, 25, msg25⟩ : Issue)] else []) ++
          (if wordBoundSearch (str "goto") (lines.getD k []) then
            [(⟨p, k + 1, 26, msg26⟩ : Issue)] else []))) = 0 := by
    rw [List.countP_eq_zero]
    intro x hx
    rcases List.mem_flatMap.mp hx with ⟨k, -, hin⟩
    rcases List.mem_append.mp hin with h25 | h26
    · rcases mem_ite_singleton h25 with ⟨-, he⟩
      simp [he]
    · rcases mem_ite_singleton h26 with ⟨-, he⟩
      simp [he]
  rw [h2526]
  have h14 : List.countP (fun i => i.rule == 4)
      (((List.range (min (sp.fin + 1) lines.length - sp.start)).map (· + sp.start)).filterMap
        (fun k => if floatLit (lines.getD k []) && cmpOp (lines.getD k []) then
          some (⟨p, k + 1, 14, msg14⟩ : Issue) else none)) = 0 := by
    rw [List.countP_eq_zero]
    intro x hx
    rcases mem_filterMap_ite hx with ⟨k, -, -, he⟩
    simp [he]
  rw [h14]
  omega

/-! ## C6: rule 4 (function length) -/

/-- C6: for a detected span whose line range `start..fin` (signature line to
closing-brace line, inclusive) holds 31 non-empty lines, rule 4 fires
exactly once for that span (the engine counts all `fin - start + 1` lines,
and 31 non-empty lines force that count above 30) and the issue reaches the
output; a span of exactly 30 lines does not fire. -/
theorem claim6_rule4 (p : String) (lines : List (List Char))
    (fm : List (String × List (List Char))) (sp : FSpan)
    (hfm : (p, lines) ∈ fm) (hsp : sp ∈ detectSpans lines) :
    (((lines.drop sp.start).take (sp.fin + 1 - sp.start)).countP
        (fun l => !l.isEmpty) = 31 →
      (spanIssues p lines sp).countP (fun i => i.rule == 4) = 1 ∧
      (⟨p, sp.start + 1, 4, msg4 sp.fname (sp.fin - sp.start + 1)⟩ : Issue) ∈
        runChecksOnFiles fm) ∧
    (sp.fin - sp.start + 1 = 30 →
      (spanIssues p lines sp).countP (fun i => i.rule == 4) = 0) := by
  obtain ⟨-, hse, -, -⟩ := detectSpans_inv2 hsp
  constructor
  · intro h31
    have hc := List.countP_le_length (p := fun l : List Char => !l.isEmpty)
      (l := (lines.drop sp.start).take (sp.fin + 1 - sp.start))
    have hl : ((lines.drop sp.start).take (sp.fin + 1 - sp.start)).length ≤
        sp.fin + 1 - sp.start := by
      simp [List.length_take]
    have hlen : sp.fin - sp.start + 1 > 30 := by omega
    refine ⟨by rw [spanIssues_countP_rule4]; simp [hlen], ?_⟩
    have hin : (⟨p, sp.start + 1, 4, msg4 sp.fname (sp.fin - sp.start + 1)⟩ : Issue) ∈
        spanIssues p lines sp := by
      simp only [spanIssues]
      refine List.mem_append.mpr (Or.inl (List.mem_append.mpr (Or.inl
        (List.mem_append.mpr (Or.inl (List.mem_append.mpr (Or.inl
          (List.mem_append.mpr (Or.inl (List.mem_append.mpr (Or.inl ?_)))))))))))
      rw [if_pos hlen]
      exact List.mem_singleton.mpr rfl
    exact spanIssue_mem_run hfm hsp hin
  · intro h30
    rw [spanIssues_countP_rule4, h30]
    simp

def c6file : List (List Char) :=
  [str "int f(void) \x7b"] ++ List.replicate 29 (str "x();") ++ [str "\x7d"]

def c6span : FSpan := ⟨0, 30, 1, str "f", str "void"⟩

set_option maxRecDepth 40000 in
/-- Witness for `claim6_rule4`: a 31-line function, every line non-empty. -/
theorem claim6_witness :
    ("a.c", c6file) ∈ [("a.c", c6file)] ∧
    c6span ∈ detectSpans c6file ∧
    ((c6file.drop 0).take 31).countP (fun l => !l.isEmpty) = 31 ∧
    ((spanIssues "a.c" c6file c6span).countP (fun i => i.rule == 4) = 1 ∧
     (⟨"a.c", 1, 4, msg4 (str "f") 31⟩ : Issue) ∈ runChecksOnFiles [("a.c", c6file)]) :=
  ⟨List.mem_singleton.mpr rfl, by decide, by decide,
    (claim6_rule4 "a.c" c6file [("a.c", c6file)] c6span
      (List.mem_singleton.mpr rfl) (by decide)).1 (by decide)⟩

/-! ## A detected definition line is never a skipped line

`func_def_re` can only match a stripped line whose first character lies in
`[\w\*\s]` and (being the head of a stripped line) is not whitespace — so
it is not `#` or `/`, and the per-line pass's skip test is false. -/

theorem funcDefMatch_head {st : List Char} {r : List Char × List Char}
    (h : funcDefMatch st = some r) :
    ∃ c cs, st = c :: cs ∧ isClassW c = true := by
  cases st with
  | nil => cases h
  | cons c cs =>
    refine ⟨c, cs, rfl, ?_⟩
    by_cases hc : isClassW c = true
    · exact hc
    · simp only [funcDefMatch] at h
      rw [if_neg hc] at h
      cases h

theorem head_stripEnd {q : Char → Bool} (a : Char) (t : List Char) :
    (((a :: t).reverse.dropWhile q).reverse).head? = some a ∨
    ((a :: t).reverse.dropWhile q).reverse = [] := by
  rw [List.reverse_cons, List.dropWhile_append]
  by_cases he : (t.reverse.dropWhile q).isEmpty = true
  · rw [if_pos he]
    by_cases hq : q a = true
    · right
      simp [List.dropWhile_cons, hq]
    · left
      simp [List.dropWhile_cons, hq]
  · rw [if_neg he]
    left
    rw [List.reverse_append]
    simp

theorem skipLine_false_of_funcDef {l : List Char} {r : List Char × List Char}
    (h : funcDefMatch (pystrip l) = some r) : skipLine l = false := by
  obtain ⟨c, cs, hst, hcw⟩ := funcDefMatch_head h
  have hchash : ¬ c = '#' := fun hc => absurd (hc ▸ hcw) (by decide)
  have hcslash : ¬ c = '/' := fun hc => absurd (hc ▸ hcw) (by decide)
  have hld : (l.dropWhile isSpaceCh).head? = some c := by
    cases hd : l.dropWhile isSpaceCh with
    | nil =>
      rw [pystrip, hd] at hst
      cases hst
    | cons a t =>
      rw [pystrip, hd] at hst
      rcases head_stripEnd (q := isSpaceCh) a t with hh | hh
      · rw [hst] at hh
        have hca : c = a := by simpa using hh
        rw [hca]
        exact rfl
      · rw [hst] at hh
        cases hh
  unfold skipLine
  cases hd : l.dropWhile isSpaceCh with
  | nil => rw [hd] at hld; cases hld
  | cons a t =>
    rw [hd] at hld
    have hca : a = c := by simpa using hld
    subst hca
    have e1 : str "#" = ['#'] := rfl
    have e2 : str "//" = ['/', '/'] := rfl
    have e3 : str "/*" = ['/', '*'] := rfl
    rw [e1, e2, e3]
    simp only [begins]
    have b1 : ('#' == a) = false := by
      simp only [beq_eq_false_iff_ne, ne_eq]
      exact fun hh => hchash hh.symm
    have b2 : ('/' == a) = false := by
      simp only [beq_eq_false_iff_ne, ne_eq]
      exact fun hh => hcslash hh.symm
    simp [b1, b2]

/-! ## C10: the duplicated rule-12 parameter-count check -/

/-- C10: for a function definition the span pass detects, with more than 5
comma-separated (non-void) parameters, the engine emits *two* rule-12
parameter-count issues attributed to the same line: one from the per-line
pass (lines 250-263) and one from the span pass (lines 360-366); their
messages differ, so they are distinct issues. -/
theorem claim10_double_param (p : String) (lines : List (List Char))
    (fm : List (String × List (List Char))) (sp : FSpan)
    (hfm : (p, lines) ∈ fm) (hsp : sp ∈ detectSpans lines)
    (hpc : paramCount sp.params > 5) :
    (⟨p, sp.start + 1, 12, msg12line sp.fname (paramCount sp.params)⟩ : Issue) ∈
      runChecksOnFiles fm ∧
    (⟨p, sp.start + 1, 12, msg12span sp.fname (paramCount sp.params)⟩ : Issue) ∈
      runChecksOnFiles fm ∧
    msg12line sp.fname (paramCount sp.params) ≠
      msg12span sp.fname (paramCount sp.params) := by
  obtain ⟨hlt, -, -, raw, hmatch, hparams⟩ := detectSpans_inv2 hsp
  refine ⟨?_, ?_, msg12line_ne_msg12span _ _ _ _⟩
  · have hs : skipLine (lines.getD sp.start []) = false := skipLine_false_of_funcDef hmatch
    have hin : (⟨p, sp.start + 1, 12, msg12line sp.fname (paramCount sp.params)⟩ : Issue) ∈
        lineChecks p lines sp.start := by
      simp only [lineChecks, hs, hmatch, rule0Search_eq_none, Bool.false_eq_true, if_false]
      refine List.mem_append.mpr (Or.inl (List.mem_append.mpr (Or.inr
        (List.mem_append.mpr (Or.inl (List.mem_append.mpr (Or.inr ?_)))))))
      rw [← hparams, if_pos hpc]
      exact List.mem_singleton.mpr rfl
    exact lineIssue_mem_run hfm hlt hin
  · have hin : (⟨p, sp.start + 1, 12, msg12span sp.fname (paramCount sp.params)⟩ : Issue) ∈
        spanIssues p lines sp := by
      simp only [spanIssues]
      refine List.mem_append.mpr (Or.inl (List.mem_append.mpr (Or.inl
        (List.mem_append.mpr (Or.inl (List.mem_append.mpr (Or.inl
          (List.mem_append.mpr (Or.inr ?_)))))))))
      rw [if_pos hpc]
      exact List.mem_singleton.mpr rfl
    exact spanIssue_mem_run hfm hsp hin

def c10file : List (List Char) :=
  [str "int f(int a, int b, int c, int d, int e, int g) \x7b", str "\x7d"]

def c10span : FSpan := ⟨0, 1, 1, str "f", str "int a, int b, int c, int d, int e, int g"⟩

/-- Witness for `claim10_double_param`: a 6-parameter function yields both
rule-12 parameter-count issues at line 1, and they are the only two rule-12
issues in the whole output. -/
theorem claim10_witness :
    ("a.c", c10file) ∈ [("a.c", c10file)] ∧
    c10span ∈ detectSpans c10file ∧
    paramCount c10span.params > 5 ∧
    (runChecksOnFiles [("a.c", c10file)]).countP (fun i => i.rule == 12) = 2 ∧
    ((⟨"a.c", 1, 12, msg12line (str "f") (paramCount c10span.params)⟩ : Issue) ∈
       runChecksOnFiles [("a.c", c10file)] ∧
     (⟨"a.c", 1, 12, msg12span (str "f") (paramCount c10span.params)⟩ : Issue) ∈
       runChecksOnFiles [("a.c", c10file)]) :=
  ⟨List.mem_singleton.mpr rfl, by decide, by decide, by rfl,
   (claim10_double_param "a.c" c10file [("a.c", c10file)] c10span
      (List.mem_singleton.mpr rfl) (by decide) (by decide)).1,
   (claim10_double_param "a.c" c10file [("a.c", c10file)] c10span
      (List.mem_singleton.mpr rfl) (by decide) (by decide)).2.1⟩

/-! ## C7: which rule ids can reach the output

Every `issues.append` the engine executes carries one of thirteen literal
rule ids; the rule-15 block computes its `checked` flag but its append
(source lines 449-450) is commented out, and both rule-27 appends (lines
620-625 and the earlier copy) are commented out as well. -/

theorem rule_mem_lineChecks {p : String} {lines : List (List Char)} {i0 : Nat} {x : Issue}
    (h : x ∈ lineChecks p lines i0) :
    x.rule = 3 ∨ x.rule = 0 ∨ x.rule = 2 ∨ x.rule = 12 ∨ x.rule = 10 := by
  revert h
  simp only [lineChecks, rule0Search_eq_none]
  split
  · intro h; cases h
  · intro h
    rcases List.mem_append.mp h with h1 | hD
    · rcases List.mem_append.mp h1 with h2 | hC
      · rcases List.mem_append.mp h2 with hA | hB
        · rcases mem_filterMap_ite hA with ⟨t, -, -, he⟩
          exact Or.inl (by simp [he])
        · cases hB
      · revert hC
        cases hff : funcDefMatch (pystrip (lines.getD i0 [])) with
        | none => intro hC; cases hC
        | some fr =>
          intro hC
          have hC0 : x ∈
              ((if styleOk fr.1 = true then [] else [(⟨p, i0 + 1, 2, msg2func fr.1⟩ : Issue)]) ++
                (if paramCount (pystrip fr.2) > 5 then
                  [(⟨p, i0 + 1, 12, msg12line fr.1 (paramCount (pystrip fr.2))⟩ : Issue)]
                 else []) ++
                (if rcScan (List.drop (i0 + 1) lines) 0 false 0 > 2 then
                  [(⟨p, i0 + 1, 10,
                      msg10 fr.1 (rcScan (List.drop (i0 + 1) lines) 0 false 0)⟩ : Issue)]
                 else [])) := hC
          rcases List.mem_append.mp hC0 with hC1 | hC3
          · rcases List.mem_append.mp hC1 with h2f | h12
            · revert h2f
              split
              · intro hh; cases hh
              · intro hh
                exact Or.inr (Or.inr (Or.inl (by simp [List.mem_singleton.mp hh])))
            · rcases mem_ite_singleton h12 with ⟨-, he⟩
              exact Or.inr (Or.inr (Or.inr (Or.inl (by simp [he]))))
          · rcases mem_ite_singleton hC3 with ⟨-, he⟩
            exact Or.inr (Or.inr (Or.inr (Or.inr (by simp [he]))))
    · revert hD
      cases hv : varDeclMatch (lines.getD i0 []) with
      | none => intro hD; cases hD
      | some v =>
        intro hD
        have hD2 : x ∈ (if styleOk v = true then []
            else [(⟨p, i0 + 1, 2, msg2var v⟩ : Issue)]) := hD
        revert hD2
        split
        · intro hh; cases hh
        · intro hh
          exact Or.inr (Or.inr (Or.inl (by simp [List.mem_singleton.mp hh])))

theorem rule_mem_spanIssues {p : String} {lines : List (List Char)} {sp : FSpan} {x : Issue}
    (h : x ∈ spanIssues p lines sp) :
    x.rule = 4 ∨ x.rule = 12 ∨ x.rule = 18 ∨ x.rule = 8 ∨ x.rule = 25 ∨
    x.rule = 26 ∨ x.rule = 14 := by
  revert h
  simp only [spanIssues]
  intro h
  rcases List.mem_append.mp h with h1 | h14
  · rcases List.mem_append.mp h1 with h2 | h26
    · rcases List.mem_append.mp h2 with h3 | h8
      · rcases List.mem_append.mp h3 with h4 | h18
        · rcases List.mem_append.mp h4 with h5 | h12p
          · rcases List.mem_append.mp h5 with hr4 | h12n
            · rcases mem_ite_singleton hr4 with ⟨-, he⟩
              exact Or.inl (by simp [he])
            · rcases mem_ite_singleton h12n with ⟨-, he⟩
              exact Or.inr (Or.inl (by simp [he]))
          · rcases mem_ite_singleton h12p with ⟨-, he⟩
            exact Or.inr (Or.inl (by simp [he]))
        · rcases List.mem_map.mp h18 with ⟨q, -, he⟩
          exact Or.inr (Or.inr (Or.inl (by simp [← he])))
      · rcases List.mem_filterMap.mp h8 with ⟨k, -, he⟩
        revert he
        split
        · intro he
          exact Or.inr (Or.inr (Or.inr (Or.inl (by simp [← Option.some_inj.mp he]))))
        · intro he; cases he
    · rcases List.mem_flatMap.mp h26 with ⟨k, -, hin⟩
      rcases List.mem_append.mp hin with h25 | h26b
      · rcases mem_ite_singleton h25 with ⟨-, he⟩
        exact Or.inr (Or.inr (Or.inr (Or.inr (Or.inl (by simp [he])))))
      · rcases mem_ite_singleton h26b with ⟨-, he⟩
        exact Or.inr (Or.inr (Or.inr (Or.inr (Or.inr (Or.inl (by simp [he]))))))
  · rcases List.mem_filterMap.mp h14 with ⟨k, -, he⟩
    revert he
    split
    · intro he
      exact Or.inr (Or.inr (Or.inr (Or.inr (Or.inr (Or.inr
        (by simp [← Option.some_inj.mp he]))))))
    · intro he; cases he

theorem rule_mem_rule5Line {p : String} {i0 : Nat} {l : List Char} {x : Issue}
    (h : x ∈ rule5Line p i0 l) : x.rule = 5 := by
  revert h
  simp only [rule5Line]
  split
  · intro h; cases h
  · intro h
    rcases List.mem_map.mp h with ⟨v, -, he⟩
    simp [← he]

theorem rule_mem_checkFile {p : String} {lines : List (List Char)} {x : Issue}
    (h : x ∈ checkFile p lines) :
    x.rule = 3 ∨ x.rule = 0 ∨ x.rule = 2 ∨ x.rule = 12 ∨ x.rule = 10 ∨ x.rule = 4 ∨
    x.rule = 18 ∨ x.rule = 8 ∨ x.rule = 25 ∨ x.rule = 26 ∨ x.rule = 14 ∨ x.rule = 5 ∨
    x.rule = 21 := by
  simp only [checkFile, globalScanIssues, List.append_nil] at h
  rcases List.mem_append.mp h with h1 | h21
  · rcases List.mem_append.mp h1 with h2 | h5
    · rcases List.mem_append.mp h2 with hlp | hsp
      · rcases List.mem_flatMap.mp hlp with ⟨i0, -, hin⟩
        have := rule_mem_lineChecks hin
        omega
      · rcases List.mem_flatMap.mp hsp with ⟨sp, -, hin⟩
        have := rule_mem_spanIssues hin
        omega
    · rcases List.mem_flatMap.mp h5 with ⟨i0, -, hin⟩
      have := rule_mem_rule5Line hin
      omega
  · rcases List.mem_flatMap.mp h21 with ⟨i0, -, hin⟩
    rcases mem_ite_singleton hin with ⟨-, he⟩
    have : x.rule = 21 := by simp [he]
    omega

/-- C7: no issue with rule id 15 and none with rule id 27 ever appears in
the engine's output, for any input: every executed append carries one of
the rule ids 0, 2, 3, 4, 5, 8, 10, 12, 14, 18, 21, 25, 26 (the rule-15 and
rule-27 appends are commented out in the source even though their detectors
compute their findings). -/
theorem claim7_no_rule15_rule27 (fm : List (String × List (List Char))) (x : Issue)
    (hx : x ∈ runChecksOnFiles fm) : x.rule ≠ 15 ∧ x.rule ≠ 27 := by
  rcases List.mem_flatMap.mp hx with ⟨pr, -, hcf⟩
  have := rule_mem_checkFile hcf
  omega

/-- Witness for `claim7_no_rule15_rule27`: a rule-5 issue from a concrete
run. -/
theorem claim7_witness :
    (⟨"a.c", 1, 5, msg5 (str "2")⟩ : Issue) ∈
      runChecksOnFiles [("a.c", [str "int x = 2;"])] ∧
    (⟨"a.c", 1, 5, msg5 (str "2")⟩ : Issue).rule ≠ 15 ∧
    (⟨"a.c", 1, 5, msg5 (str "2")⟩ : Issue).rule ≠ 27 :=
  ⟨by decide, claim7_no_rule15_rule27 [("a.c", [str "int x = 2;"])] _ (by decide)⟩

/-! ## C8: fail-open spans, and the rule-15 IndexError -/

/-- Two lines, unbalanced braces, a `malloc` assignment on the last line:
the configuration on which the real script raises `IndexError`. -/
def c8crash : List (List Char) :=
  [str "int f(int a) \x7b", str "p = malloc(10);"]

/-- Two lines, unbalanced braces, `exit` on the last line: span detectors
still run on the fail-open span. -/
def c8exit : List (List Char) :=
  [str "int f(int a) \x7b", str "    exit(1);"]

/-- C8: the fail-open half of the claim holds — the brace walk never runs
past end-of-file, a walk that never rebalances ends exactly at
`lines.length` (the span extends to end-of-file), and the span-level
detectors still run on such a span (rule 25 fires at line 2 of `c8exit`).
The no-exception half is false: on `c8crash` the detected span is
`⟨0, 2, …⟩` with `end_idx = nlines = 2`, and the rule-15 lookahead's first
access `lines[k+1] = lines[2]` is out of bounds (`rule15OOB`), so
`run_checks_on_files` raises `IndexError` instead of returning a list —
the inner loop bound `min(k+11, end_idx+1)` lacks the `nlines` clamp that
the enclosing loop has. -/
theorem claim8_fail_open_but_crash :
    (∀ (ls : List (List Char)) (b : Int) (st : Bool) (m : Int),
      (spanScan ls b st m).1 ≤ ls.length ∧
      ((spanScan ls b st m).2.2 = false → (spanScan ls b st m).1 = ls.length)) ∧
    detectSpans c8crash = [⟨0, 2, 1, str "f", str "int a"⟩] ∧
    rule15OOB c8crash ⟨0, 2, 1, str "f", str "int a"⟩ = true ∧
    (⟨"u.c", 2, 25, msg25⟩ : Issue) ∈ runChecksOnFiles [("u.c", c8exit)] :=
  ⟨fun ls b st m => ⟨spanScan_le ls b st m, spanScan_no_break ls b st m⟩,
   by decide, by decide, by decide⟩

/-- Witness for `claim8_fail_open_but_crash`: the walk over `c8crash` never
rebalances, and its end offset is exactly the file length. -/
theorem claim8_witness :
    (spanScan c8crash 0 false 0).2.2 = false ∧
    (spanScan c8crash 0 false 0).1 = c8crash.length :=
  ⟨by decide, (claim8_fail_open_but_crash.1 c8crash 0 false 0).2 (by decide)⟩

/-! ## C9: per-file independence -/

/-- C9: the engine is the concatenation of a pure per-file analysis, so
running it on the files in any order and concatenating per-file runs gives
the same multiset of issues as one combined run. -/
theorem claim9_per_file_independent (fm1 fm2 : List (String × List (List Char)))
    (h : fm1.Perm fm2) :
    (runChecksOnFiles fm1).Perm
      (fm2.flatMap (fun pr => runChecksOnFiles [pr])) := by
  have h2 := List.Perm.flatMap_right
    (fun pr : String × List (List Char) => checkFile pr.1 pr.2) h
  simpa [runChecksOnFiles] using h2

/-- Witness for `claim9_per_file_independent`: two concrete files, swapped. -/
theorem claim9_witness :
    ([("a.c", [str "int x = 2;"]), ("b.c", [str "x = 1; // vvod"])].Perm
      [("b.c", [str "x = 1; // vvod"]), ("a.c", [str "int x = 2;"])]) ∧
    (runChecksOnFiles [("a.c", [str "int x = 2;"]), ("b.c", [str "x = 1; // vvod"])]).Perm
      ([("b.c", [str "x = 1; // vvod"]), ("a.c", [str "int x = 2;"])].flatMap
        (fun pr => runChecksOnFiles [pr])) :=
  ⟨by decide,
   claim9_per_file_independent _ _ (by decide)⟩

end AutoReview
